import Mathlib

/-!
Verification of the gurl URL parser (a TypeScript port of a Go standard
library URL parser, spread over `src/src/index.ts` and `src/unnamed/part_000`).

Strings are embedded as `List Char`; JavaScript `charCodeAt` comparisons become
comparisons of `Char.toNat`.  Fallible operations return `Except Err α`, where
`Err` mirrors the `{name, message}` error objects of the source.  Optional
fields of the `URL` interface become `Option` fields.  Error message texts are
kept close to the source but punctuation-only differences (quotes) are not
reproduced.

Functions that the source only calls but does not define under `src/`
(`shouldEscape`, `validUserinfo`, `setPath`, `setFragment`, `escape`) are
modelled from the spec; each carries a doc comment saying so.
-/

/-- `strings.hasPrefix` of the source: `s.length >= p.length && s.slice(0, p.length) === p`. -/
def startsWith : List Char → List Char → Bool
  | _, [] => true
  | [], _ :: _ => false
  | c :: s, p :: ps => c = p && startsWith s ps

/-- JavaScript `s.endsWith(p)`. -/
def endsWith (s p : List Char) : Bool :=
  decide (p.length ≤ s.length) && decide (s.drop (s.length - p.length) = p)

/-- `strings.count(s, c) = s.split(c).length - 1` of the source; for a
single-character separator this is the number of occurrences of `c`. -/
def countOccur (s : List Char) (c : Char) : Nat :=
  (s.filter (fun x => x = c)).length

/-- JavaScript `s.indexOf(c) !== -1` for a single character. -/
def containsChar (s : List Char) (c : Char) : Bool :=
  s.any (fun x => x = c)

/-- JavaScript `s.indexOf(pat)` for a substring, as an `Option Nat`
(`none` standing for `-1`): index of the first occurrence. -/
def subIndex? : List Char → List Char → Option Nat
  | [], pat => if startsWith [] pat then some 0 else none
  | c :: rest, pat =>
    if startsWith (c :: rest) pat then some 0
    else (subIndex? rest pat).map (· + 1)

/-- JavaScript `s.lastIndexOf(c)` for a single character, as an `Option Nat`. -/
def lastIndexOf? : List Char → Char → Option Nat
  | [], _ => none
  | x :: rest, c =>
    match lastIndexOf? rest c with
    | some j => some (j + 1)
    | none => if x = c then some 0 else none

/-- Result of `strings.cut` of the source. -/
structure CutRes where
  before : List Char
  after : List Char
  found : Bool
deriving DecidableEq

/-- `strings.cut(s, sep)` of the source: split at the first occurrence of
`sep`; when absent, `before` is the whole string and `after` is empty. -/
def cutStr (s sep : List Char) : CutRes :=
  match subIndex? s sep with
  | some i => ⟨s.take i, s.drop (i + sep.length), true⟩
  | none => ⟨s, [], false⟩

/-- JavaScript `toLowerCase`, restricted to the ASCII range the parser uses. -/
def toLowerAscii (s : List Char) : List Char :=
  s.map (fun c =>
    if 'A'.toNat ≤ c.toNat ∧ c.toNat ≤ 'Z'.toNat then Char.ofNat (c.toNat + 32) else c)

/-- The `{name, message}` error objects of the source. -/
structure Err where
  name : List Char
  message : List Char
deriving DecidableEq

/-- Result type of `getScheme`: the `Scheme` interface of the source. -/
structure SchemeRes where
  Scheme : List Char
  Path : List Char
deriving DecidableEq

/-- The encoding-context enum (`encodeHost`, `encodeZone`, ... of the source). -/
inductive Mode where
  | encodeHost
  | encodeZone
  | encodeUserPassword
  | encodePath
  | encodeQueryComponent
  | encodeFragment
deriving DecidableEq

/-- The `User(username)` / `UserPassword(username, password)` values built by
`parseAuthority`. -/
inductive Userinfo where
  | user (username : List Char)
  | userPassword (username password : List Char)
deriving DecidableEq

/-- The `URL` interface of the source: all fields optional.  `User` is
assigned by `parseAuthority` in `src/unnamed/part_000`. -/
structure URL where
  Scheme : Option (List Char) := none
  Opaque : Option (List Char) := none
  Host : Option (List Char) := none
  Path : Option (List Char) := none
  RawPath : Option (List Char) := none
  OmitHost : Option Bool := none
  ForceQuery : Option Bool := none
  RawQuery : Option (List Char) := none
  Fragment : Option (List Char) := none
  RawFragment : Option (List Char) := none
  User : Option Userinfo := none
deriving DecidableEq

def missingSchemeErr : Err := ⟨"MISSING_SCHEME".data, "missing protocol scheme".data⟩

def ctlErr : Err := ⟨"INVALID_CTRL_CHARACTER".data, "invalid control character in URL".data⟩

def emptyUrlErr : Err := ⟨"EMPTY_URL".data, "empty url".data⟩

def invalidRequestUriErr : Err := ⟨"INVALID_REQUEST_URI".data, "invalid URI for request".data⟩

def pathColonErr : Err :=
  ⟨"PATH_UNEXPECTED_COLON".data, "first path segment in URL cannot contain colon".data⟩

def missingRBracketErr : Err :=
  ⟨"MISSING_RBRACKET_IN_HOST".data, "missing right bracket in host".data⟩

def invalidHostPortErr (colonPort : List Char) : Err :=
  ⟨"INVALID_HOST_PORT".data, "invalid port ".data ++ colonPort ++ " after host".data⟩

/-- The escape errors of `unescape` carry an empty `name` and the offending
substring as `message`, exactly as in the source. -/
def escapeErr (payload : List Char) : Err := ⟨[], payload⟩

/-- The `InvalidHostError(s[i:i+1])` of the source (Go residue); the spec
calls this kind `InvalidHostCharacter`. -/
def invalidHostCharErr (c : Char) : Err := ⟨"INVALID_HOST_CHARACTER".data, [c]⟩

def invalidUserinfoErr : Err := ⟨"INVALID_USERINFO".data, "invalid userinfo".data⟩

/-- `stringContainsCTLByte` of the source: any byte below 0x20, or 0x7f. -/
def stringContainsCTLByte (s : List Char) : Bool :=
  s.any (fun b => b.toNat < 0x20 || b.toNat = 0x7f)

/-- The scanning loop of `getScheme`.  `i` is the loop index and `rem` the
still-unscanned suffix `rawURL.drop i`, so that `c = rawURL.charCodeAt(i)` is
the head of `rem`.  The branch structure mirrors the source exactly:
the test `rawURL[i] == ':'` sits on the `else` of the
"is not an ASCII letter" test, so it is only evaluated when the current
character IS a letter. -/
def getSchemeAux (rawURL : List Char) : Nat → List Char → Except Err SchemeRes
  | _, [] => .ok ⟨[], rawURL⟩
  | i, c :: rem =>
    if ¬ (('a'.toNat ≤ c.toNat ∧ c.toNat ≤ 'z'.toNat) ∨
          ('A'.toNat ≤ c.toNat ∧ c.toNat ≤ 'Z'.toNat)) then
      if ('0'.toNat ≤ c.toNat ∧ c.toNat ≤ '9'.toNat) ∨ c = '+' ∨ c = '-' ∨ c = '.' then
        if i = 0 then .ok ⟨[], rawURL⟩
        else getSchemeAux rawURL (i + 1) rem
      else getSchemeAux rawURL (i + 1) rem
    else if c = ':' then
      if i = 0 then .error missingSchemeErr
      else .ok ⟨rawURL.take i, rawURL.drop (i + 1)⟩
    else .ok ⟨[], rawURL⟩

/-- `getScheme` of the source. -/
def getScheme (rawURL : List Char) : Except Err SchemeRes :=
  getSchemeAux rawURL 0 rawURL

/-- `validOptionalPort` of the source: empty, or `:` followed by digits only. -/
def validOptionalPort (port : List Char) : Bool :=
  match port with
  | [] => true
  | c :: rest =>
    c = ':' && rest.all (fun b => '0'.toNat ≤ b.toNat && b.toNat ≤ '9'.toNat)

/-- `ishex` of the source. -/
def ishex (c : Char) : Bool :=
  if '0'.toNat ≤ c.toNat ∧ c.toNat ≤ '9'.toNat then true
  else if 'a'.toNat ≤ c.toNat ∧ c.toNat ≤ 'f'.toNat then true
  else if 'A'.toNat ≤ c.toNat ∧ c.toNat ≤ 'F'.toNat then true
  else false

/-- `unhex` of the source; 0 on non-hex input. -/
def unhex (c : Char) : Nat :=
  if '0'.toNat ≤ c.toNat ∧ c.toNat ≤ '9'.toNat then c.toNat - '0'.toNat
  else if 'a'.toNat ≤ c.toNat ∧ c.toNat ≤ 'f'.toNat then c.toNat - 'a'.toNat + 10
  else if 'A'.toNat ≤ c.toNat ∧ c.toNat ≤ 'F'.toNat then c.toNat - 'A'.toNat + 10
  else 0

def isAlphaNum (c : Char) : Bool :=
  ('a'.toNat ≤ c.toNat && c.toNat ≤ 'z'.toNat) ||
  ('A'.toNat ≤ c.toNat && c.toNat ≤ 'Z'.toNat) ||
  ('0'.toNat ≤ c.toNat && c.toNat ≤ '9'.toNat)

/-- Characters allowed unescaped in a host besides alphanumerics and marks:
sub-delims plus `:[]<>"` (spec section 4.1, Host row). -/
def hostAllowed (c : Char) : Bool :=
  c = '!' || c = '$' || c = '&' || c = Char.ofNat 39 || c = '(' || c = ')' ||
  c = '*' || c = '+' || c = ',' || c = ';' || c = '=' || c = ':' ||
  c = '[' || c = ']' || c = '<' || c = '>' || c = '"'

/-- Modelled from the spec: `shouldEscape` (the CharacterClassifier) is called
by `unescape` but not defined under `src/`.  Spec section 4.1 gives the Host
and Zone rows and says the rest mirrors the standard RFC 3986
reserved/unreserved sets: unreserved bytes (alphanumerics and `-._~`) are
never escaped; reserved bytes are escaped or not per context. -/
def shouldEscape (c : Char) (mode : Mode) : Bool :=
  if isAlphaNum c then false
  else if (mode = Mode.encodeHost ∨ mode = Mode.encodeZone) ∧ hostAllowed c then false
  else if c = '-' ∨ c = '_' ∨ c = '.' ∨ c = '~' then false
  else if c = '$' ∨ c = '&' ∨ c = '+' ∨ c = ',' ∨ c = '/' ∨ c = ':' ∨ c = ';' ∨
          c = '=' ∨ c = '?' ∨ c = '@' then
    match mode with
    | Mode.encodePath => c = '?'
    | Mode.encodeUserPassword => c = '@' || c = '/' || c = '?' || c = ':'
    | Mode.encodeQueryComponent => true
    | Mode.encodeFragment => false
    | _ => true
  else if mode = Mode.encodeFragment ∧ (c = '!' ∨ c = '(' ∨ c = ')' ∨ c = '*') then false
  else true

def hexUpper (n : Nat) : Char := "0123456789ABCDEF".data.getD n '0'

/-- Modelled from the spec: one step of the default re-encoding algorithm
(spec sections 4.2 and 9: encoding and decoding form a matched pair; space
becomes `+` only in the query-component context). -/
def escapeChar (c : Char) (mode : Mode) : List Char :=
  if c = ' ' ∧ mode = Mode.encodeQueryComponent then ['+']
  else if shouldEscape c mode then ['%', hexUpper (c.toNat / 16 % 16), hexUpper (c.toNat % 16)]
  else [c]

/-- Modelled from the spec: the default re-encoding used to decide whether a
raw hint must be retained. -/
def escape : List Char → Mode → List Char
  | [], _ => []
  | c :: rest, mode => escapeChar c mode ++ escape rest mode

/-- First loop of `unescape` in the source: count `%` escapes and check that
they are well-formed, returning whether a decoded copy must be built
(`n > 0 || hasPlus`), or the first error. -/
def unescapeLoop (mode : Mode) : List Char → Except Err Bool
  | [] => .ok false
  | c :: rest =>
    if c = '%' then
      match rest with
      | d1 :: d2 :: t =>
        if ¬ (ishex d1 = true ∧ ishex d2 = true) then
          .error (escapeErr ['%', d1, d2])
        else if mode = Mode.encodeHost ∧ unhex d1 < 8 ∧ ¬ (['%', d1, d2] = "%25".data) then
          .error (escapeErr ['%', d1, d2])
        else if mode = Mode.encodeZone ∧
                ¬ (['%', d1, d2] = "%25".data) ∧
                ¬ (16 * unhex d1 + unhex d2 = ' '.toNat) ∧
                shouldEscape (Char.ofNat (16 * unhex d1 + unhex d2)) Mode.encodeHost = true then
          .error (escapeErr ['%', d1, d2])
        else
          Except.map (fun _ => true) (unescapeLoop mode t)
      | _ => .error (escapeErr (('%' :: rest).take 3))
    else if c = '+' then
      Except.map (fun b => b || decide (mode = Mode.encodeQueryComponent)) (unescapeLoop mode rest)
    else
      if (mode = Mode.encodeHost ∨ mode = Mode.encodeZone) ∧ c.toNat < 0x80 ∧
         shouldEscape c mode = true then
        .error (invalidHostCharErr c)
      else unescapeLoop mode rest

/-- Second loop of `unescape` in the source: build the decoded string
(only reached after the first loop validated `s`).  A `%` with fewer than two
following characters decodes missing digits as 0, as `unhex(undefined)` does. -/
def unescapeBuild (mode : Mode) : List Char → List Char
  | [] => []
  | '%' :: d1 :: d2 :: t => Char.ofNat (16 * unhex d1 + unhex d2) :: unescapeBuild mode t
  | '%' :: d1 :: [] => [Char.ofNat (16 * unhex d1)]
  | '%' :: [] => [Char.ofNat 0]
  | '+' :: rest => (if mode = Mode.encodeQueryComponent then ' ' else '+') :: unescapeBuild mode rest
  | c :: rest => c :: unescapeBuild mode rest

/-- `unescape` of the source: validate, then either return `s` unchanged
(no `%` and no effective `+`) or build the decoded copy. -/
def unescape (s : List Char) (mode : Mode) : Except Err (List Char) :=
  match unescapeLoop mode s with
  | .error e => .error e
  | .ok false => .ok s
  | .ok true => .ok (unescapeBuild mode s)

/-- `parseHost` of the source.  Bracketed hosts: find the last `]`; validate
the port suffix; a `%25` before the `]` splits the input into
pre-zone / zone / post-bracket slices decoded in Host, Zone, Host context.
Otherwise the whole string (port included) is decoded in Host context after
validating any `:` suffix. -/
def parseHost (host : List Char) : Except Err (List Char) :=
  if startsWith host "[".data then
    match lastIndexOf? host ']' with
    | none => .error missingRBracketErr
    | some i =>
      if ¬ (validOptionalPort (host.drop (i + 1)) = true) then
        .error (invalidHostPortErr (host.drop (i + 1)))
      else
        match subIndex? (host.take i) "%25".data with
        | some zone => do
          let host1 ← unescape (host.take zone) Mode.encodeHost
          let host2 ← unescape ((host.drop zone).take (i - zone)) Mode.encodeZone
          let host3 ← unescape (host.drop i) Mode.encodeHost
          pure (host1 ++ host2 ++ host3)
        | none => unescape host Mode.encodeHost
  else
    match lastIndexOf? host ':' with
    | some i =>
      if ¬ (validOptionalPort (host.drop i) = true) then
        .error (invalidHostPortErr (host.drop i))
      else unescape host Mode.encodeHost
    | none => unescape host Mode.encodeHost

/-- Modelled from the spec: `validUserinfo` is called by `parseAuthority` but
not defined under `src/`.  Spec section 4.6 requires the userinfo to satisfy a
checked character class; per RFC 3986 section 3.2.1 that class is
unreserved / sub-delims / `:` / `%` / `@`. -/
def validUserinfo (s : List Char) : Bool :=
  s.all fun r =>
    isAlphaNum r || r = '-' || r = '.' || r = '_' || r = ':' || r = '~' ||
    r = '!' || r = '$' || r = '&' || r = Char.ofNat 39 || r = '(' || r = ')' ||
    r = '*' || r = '+' || r = ',' || r = ';' || r = '=' || r = '%' || r = '@'

/-- `parseAuthority` of the source: the host is the text after the LAST `@`
(parsed first); the userinfo before it must satisfy `validUserinfo`; a
userinfo with a `:` is cut at the FIRST `:` into username and password, each
decoded in UserPassword context. -/
def parseAuthority (authority : List Char) : Except Err (Option Userinfo × List Char) :=
  match lastIndexOf? authority '@' with
  | none =>
    match parseHost authority with
    | .error e => .error e
    | .ok host => .ok (none, host)
  | some i =>
    match parseHost (authority.drop (i + 1)) with
    | .error e => .error e
    | .ok host =>
      let userinfo := authority.take i
      if ¬ (validUserinfo userinfo = true) then .error invalidUserinfoErr
      else if ¬ (containsChar userinfo ':' = true) then
        match unescape userinfo Mode.encodeUserPassword with
        | .error e => .error e
        | .ok u => .ok (some (Userinfo.user u), host)
      else
        match unescape (cutStr userinfo ":".data).before Mode.encodeUserPassword with
        | .error e => .error e
        | .ok username =>
          match unescape (cutStr userinfo ":".data).after Mode.encodeUserPassword with
          | .error e => .error e
          | .ok password => .ok (some (Userinfo.userPassword username password), host)

/-- Modelled from the spec: `url.setPath(rest)` is called by `parse` but not
defined under `src/`.  Spec step 9: decode the raw path in Path context into
`Path`, keeping `RawPath` only when default re-encoding of the decoded value
would not reproduce the raw text. -/
def setPath (url : URL) (p : List Char) : Except Err URL :=
  match unescape p Mode.encodePath with
  | .error e => .error e
  | .ok path =>
    .ok { url with
          Path := some path,
          RawPath := if escape path Mode.encodePath = p then none else some p }

/-- Modelled from the spec: `url.setFragment(frag)` is called by `Parse` but
not defined under `src/`.  Same decode/hint pair as `setPath`, in Fragment
context. -/
def setFragment (url : URL) (f : List Char) : Except Err URL :=
  match unescape f Mode.encodeFragment with
  | .error e => .error e
  | .ok frag =>
    .ok { url with
          Fragment := some frag,
          RawFragment := if escape frag Mode.encodeFragment = f then none else some f }

/-- The `?` handling of `parse` (both files, identical text): a remainder
ending in its only `?` sets `ForceQuery` and is stripped; otherwise the
remainder is cut at the first `?` and the tail becomes `RawQuery`. -/
def parseQuerySplit (rest : List Char) (url : URL) : List Char × URL :=
  if endsWith rest "?".data = true ∧ countOccur rest '?' = 1 then
    (rest.take (rest.length - 1), { url with ForceQuery := some true })
  else
    (( cutStr rest "?".data).before, { url with RawQuery := some (cutStr rest "?".data).after })

/-- The authority / OmitHost / path tail of `parse` in `src/src/index.ts`:
note the result of `parseAuthority` is only checked for an error and then
DISCARDED (the assignment to `url.User, url.Host` is commented out there). -/
def parseAuthorityStage (rest : List Char) (url : URL) (viaRequest : Bool) : Except Err URL :=
  if (url.Scheme.getD [] ≠ [] ∨ (viaRequest = false ∧ startsWith rest "///".data = false)) ∧
     startsWith rest "//".data = true then
    match subIndex? (rest.drop 2) "/".data with
    | some i =>
      match parseAuthority ((rest.drop 2).take i) with
      | .error e => .error e
      | .ok _ => setPath url ((rest.drop 2).drop i)
    | none =>
      match parseAuthority (rest.drop 2) with
      | .error e => .error e
      | .ok _ => setPath url []
  else if url.Scheme.getD [] ≠ [] ∧ startsWith rest "/".data = true then
    setPath { url with OmitHost := some true } rest
  else setPath url rest

/-- Same stage in `src/unnamed/part_000`: there the `parseAuthority` result IS
assigned to `url.User` and `url.Host`. -/
def parseAuthorityStage0 (rest : List Char) (url : URL) (viaRequest : Bool) : Except Err URL :=
  if (url.Scheme.getD [] ≠ [] ∨ (viaRequest = false ∧ startsWith rest "///".data = false)) ∧
     startsWith rest "//".data = true then
    match subIndex? (rest.drop 2) "/".data with
    | some i =>
      match parseAuthority ((rest.drop 2).take i) with
      | .error e => .error e
      | .ok uh => setPath { url with User := uh.1, Host := some uh.2 } ((rest.drop 2).drop i)
    | none =>
      match parseAuthority (rest.drop 2) with
      | .error e => .error e
      | .ok uh => setPath { url with User := uh.1, Host := some uh.2 } []
  else if url.Scheme.getD [] ≠ [] ∧ startsWith rest "/".data = true then
    setPath { url with OmitHost := some true } rest
  else setPath url rest

/-- The non-rooted block and tail of `parse` in `src/src/index.ts`: a
remainder not starting with `/` is Opaque when a scheme is present, an error
for requests, and otherwise its first `/`-segment must not contain `:`. -/
def parseAfterQuery (rest : List Char) (url : URL) (viaRequest : Bool) : Except Err URL :=
  if 0 < rest.length ∧ rest.headD ' ' = '/' then
    parseAuthorityStage rest url viaRequest
  else if url.Scheme.getD [] ≠ [] then .ok { url with Opaque := some rest }
  else if viaRequest = true then .error invalidRequestUriErr
  else if containsChar (cutStr rest "/".data).before ':' = true then .error pathColonErr
  else parseAuthorityStage rest url viaRequest

/-- Same block in `src/unnamed/part_000`. -/
def parseAfterQuery0 (rest : List Char) (url : URL) (viaRequest : Bool) : Except Err URL :=
  if 0 < rest.length ∧ rest.headD ' ' = '/' then
    parseAuthorityStage0 rest url viaRequest
  else if url.Scheme.getD [] ≠ [] then .ok { url with Opaque := some rest }
  else if viaRequest = true then .error invalidRequestUriErr
  else if containsChar (cutStr rest "/".data).before ':' = true then .error pathColonErr
  else parseAuthorityStage0 rest url viaRequest

/-- `parse` of `src/src/index.ts`. -/
def parse (rawURL : List Char) (viaRequest : Bool) : Except Err URL :=
  if stringContainsCTLByte rawURL = true then .error ctlErr
  else if rawURL = [] ∧ viaRequest = true then .error emptyUrlErr
  else if rawURL = "*".data then .ok { Path := some "*".data }
  else
    match getScheme rawURL with
    | .error e => .error e
    | .ok sch =>
      let qs := parseQuerySplit sch.Path { Scheme := some (toLowerAscii sch.Scheme) }
      parseAfterQuery qs.1 qs.2 viaRequest

/-- `parse` of `src/unnamed/part_000`. -/
def parse0 (rawURL : List Char) (viaRequest : Bool) : Except Err URL :=
  if stringContainsCTLByte rawURL = true then .error ctlErr
  else if rawURL = [] ∧ viaRequest = true then .error emptyUrlErr
  else if rawURL = "*".data then .ok { Path := some "*".data }
  else
    match getScheme rawURL with
    | .error e => .error e
    | .ok sch =>
      let qs := parseQuerySplit sch.Path { Scheme := some (toLowerAscii sch.Scheme) }
      parseAfterQuery0 qs.1 qs.2 viaRequest

/-- The wrapped error of the top-level `Parse` (`&Error{"parse", u, err}`):
operation name, original input, underlying error. -/
structure UrlError where
  op : List Char
  url : List Char
  err : Err
deriving DecidableEq

/-- `Parse` of `src/src/index.ts`: cut off the fragment at the first `#`,
parse the part before it with `viaRequest = false`, then decode the fragment
when present.  Errors are wrapped with the operation name and the input. -/
def Parse (rawURL : List Char) : Except UrlError URL :=
  match parse (cutStr rawURL "#".data).before false with
  | .error e => .error ⟨"parse".data, rawURL, e⟩
  | .ok url =>
    if (cutStr rawURL "#".data).after = [] then .ok url
    else
      match setFragment url (cutStr rawURL "#".data).after with
      | .error e => .error ⟨"parse".data, rawURL, e⟩
      | .ok url2 => .ok url2

/-- Erases the two fields that distinguish the two `parse` variants; used to
state how `src/src/index.ts` refines `src/unnamed/part_000`. -/
def clearUserHost (u : URL) : URL := { u with User := none, Host := none }

/-- Observation helper: the `Host` field of a successful parse. -/
def hostOf : Except Err URL → Option (List Char)
  | .ok u => u.Host
  | .error _ => none

/-- Observation helper: did the computation succeed. -/
def isOkB {ε α : Type} : Except ε α → Bool
  | .ok _ => true
  | .error _ => false

theorem getSchemeAux_const (rawURL : List Char) :
    ∀ rem i, getSchemeAux rawURL i rem = .ok ⟨[], rawURL⟩ := by
  intro rem
  induction rem with
  | nil => intro i; rfl
  | cons c rest ih =>
    intro i
    rw [getSchemeAux]
    by_cases hl : ('a'.toNat ≤ c.toNat ∧ c.toNat ≤ 'z'.toNat) ∨
        ('A'.toNat ≤ c.toNat ∧ c.toNat ≤ 'Z'.toNat)
    · have hc : ¬ c = ':' := by
        intro h
        subst h
        revert hl
        decide
    
      rw [if_neg (not_not_intro hl), if_neg hc]
    · rw [if_pos hl]
      by_cases hd : ('0'.toNat ≤ c.toNat ∧ c.toNat ≤ '9'.toNat) ∨ c = '+' ∨ c = '-' ∨ c = '.'
      · rw [if_pos hd]
        by_cases hi : i = 0
        · rw [if_pos hi]
        · rw [if_neg hi, ih]
      · rw [if_neg hd, ih]

theorem getScheme_eq (rawURL : List Char) : getScheme rawURL = .ok ⟨[], rawURL⟩ :=
  getSchemeAux_const rawURL rawURL 0

/-- Claim C9: for every input string, getScheme returns the empty scheme with
the input unchanged as the remainder; hence the branch returning a non-empty
scheme and the branch returning the MissingScheme error are unreachable (the
colon test lies on the else-branch taken only when the current character is an
ASCII letter, and a letter is never a colon). -/
theorem claimC9 (rawURL : List Char) : getScheme rawURL = .ok ⟨[], rawURL⟩ :=
  getScheme_eq rawURL

/-- Claim C2, evaluation at the failing input: for "http:foo" the code returns
the empty scheme and the whole input as remainder, where the claim (and the
doc comment of getScheme itself) requires scheme "http" and remainder "foo". -/
theorem claimC2 : getScheme "http:foo".data = .ok ⟨[], "http:foo".data⟩ := rfl

/-- Claim C7, evaluation at the failing input: parse("cache_object:foo/bar")
with viaRequest=false returns the PathUnexpectedColon error, where the claim
requires success with an Opaque remainder (the scheme is never extracted
because getScheme's colon branch is unreachable). -/
theorem claimC7 :
    parse "cache_object:foo/bar".data false = .error pathColonErr := rfl

/-- Claim C1, evaluation at the failing input: Parse("http://example.com/a?b")
returns the wrapped PathUnexpectedColon error instead of the claimed success
with scheme "http", host "example.com", path "/a", rawQuery "b". -/
theorem claimC1 :
    Parse "http://example.com/a?b".data =
      .error ⟨"parse".data, "http://example.com/a?b".data, pathColonErr⟩ := rfl

/-- Claim C3: the parseHost half of the claim holds on the claimed input
(brackets found, port validated, the %25 zone split decoded Host/Zone/Host and
concatenated), but the end-to-end Parse call of the claim fails with
PathUnexpectedColon because getScheme never extracts the scheme. -/
theorem claimC3 :
    parseHost "[fe80::1%25en0]:8080".data = .ok "[fe80::1%en0]:8080".data ∧
    Parse "http://[fe80::1%25en0]:8080/".data =
      .error ⟨"parse".data, "http://[fe80::1%25en0]:8080/".data, pathColonErr⟩ :=
  ⟨rfl, rfl⟩

theorem parse_ctl (rawURL : List Char) (via : Bool)
    (h : stringContainsCTLByte rawURL = true) : parse rawURL via = .error ctlErr := by
  unfold parse
  rw [if_pos h]

/-- Claim C5, amended: Parse returns the ControlCharacter error for every
input whose portion before the first "#" contains a byte in 0x00-0x1F or
0x7F.  (A control byte occurring only after the first "#" is NOT rejected:
Parse splits the fragment off before parsing, and fragment decoding performs
no control-byte check; see the counterexample.) -/
theorem claimC5 (s : List Char)
    (h : stringContainsCTLByte (cutStr s "#".data).before = true) :
    Parse s = .error ⟨"parse".data, s, ctlErr⟩ := by
  unfold Parse
  rw [parse_ctl _ _ h]

theorem claimC5_witness :
    stringContainsCTLByte (cutStr "\x01".data "#".data).before = true ∧
    Parse "\x01".data = .error ⟨"parse".data, "\x01".data, ctlErr⟩ :=
  ⟨rfl, claimC5 "\x01".data rfl⟩

/-- Claim C5, counterexample: the input "a#\x7f" contains the byte 0x7F (after
the "#"), yet Parse succeeds instead of returning the ControlCharacter
error. -/
theorem claimC5_cex : isOkB (Parse "a#\x7f".data) = true := rfl


theorem unescapeLoop_cons_eq (mode : Mode) (c a b : Char) (l : List Char) :
    unescapeLoop mode (c :: a :: b :: l) =
      if c = '%' then
        if ¬ (ishex a = true ∧ ishex b = true) then
          .error (escapeErr ['%', a, b])
        else if mode = Mode.encodeHost ∧ unhex a < 8 ∧ ¬ (['%', a, b] = "%25".data) then
          .error (escapeErr ['%', a, b])
        else if mode = Mode.encodeZone ∧
                ¬ (['%', a, b] = "%25".data) ∧
                ¬ (16 * unhex a + unhex b = ' '.toNat) ∧
                shouldEscape (Char.ofNat (16 * unhex a + unhex b)) Mode.encodeHost = true then
          .error (escapeErr ['%', a, b])
        else
          Except.map (fun _ => true) (unescapeLoop mode l)
      else if c = '+' then
        Except.map (fun x => x || decide (mode = Mode.encodeQueryComponent))
          (unescapeLoop mode (a :: b :: l))
      else
        if (mode = Mode.encodeHost ∨ mode = Mode.encodeZone) ∧ c.toNat < 0x80 ∧
           shouldEscape c mode = true then
          .error (invalidHostCharErr c)
        else unescapeLoop mode (a :: b :: l) := by
  simp only [unescapeLoop]

theorem unescapeLoop_host_hit (d1 d2 : Char) (t : List Char)
    (h1 : ishex d1 = true) (h2 : ishex d2 = true) (h8 : unhex d1 < 8)
    (hne : ¬ (['%', d1, d2] = "%25".data)) :
    unescapeLoop Mode.encodeHost ('%' :: d1 :: d2 :: t) = .error (escapeErr ['%', d1, d2]) := by
  rw [unescapeLoop_cons_eq, if_pos rfl, if_neg (not_not_intro ⟨h1, h2⟩),
    if_pos ⟨rfl, h8, hne⟩]

theorem unescapeLoop_host_err :
    ∀ (n : Nat) (p t : List Char) (d1 d2 : Char), p.length ≤ n →
      ishex d1 = true → ishex d2 = true → unhex d1 < 8 →
      ¬ (['%', d1, d2] = "%25".data) →
      ∃ e, unescapeLoop Mode.encodeHost (p ++ '%' :: d1 :: d2 :: t) = .error e := by
  intro n
  induction n with
  | zero =>
    intro p t d1 d2 hp h1 h2 h8 hne
    have hpnil : p = [] := List.length_eq_zero.mp (Nat.le_zero.mp hp)
    subst hpnil
    exact ⟨_, unescapeLoop_host_hit d1 d2 t h1 h2 h8 hne⟩
  | succ n ih =>
    intro p t d1 d2 hp h1 h2 h8 hne
    cases p with
    | nil => exact ⟨_, unescapeLoop_host_hit d1 d2 t h1 h2 h8 hne⟩
    | cons c p' =>
      have hlen' : p'.length ≤ n := by
        simp only [List.length_cons] at hp
        omega
      by_cases hc : c = '%'
      · subst hc
        cases p' with
        | nil =>
          simp only [List.cons_append, List.nil_append]
          rw [unescapeLoop_cons_eq, if_pos rfl,
            if_pos (fun hh => absurd hh.1 (by decide : ¬ ishex '%' = true))]
          exact ⟨_, rfl⟩
        | cons x p'' =>
          cases p'' with
          | nil =>
            simp only [List.cons_append, List.nil_append]
            rw [unescapeLoop_cons_eq, if_pos rfl,
              if_pos (fun hh => absurd hh.2 (by decide : ¬ ishex '%' = true))]
            exact ⟨_, rfl⟩
          | cons y p''' =>
            have hlen3 : p'''.length ≤ n := by
              simp only [List.length_cons] at hp
              omega
            simp only [List.cons_append]
            rw [unescapeLoop_cons_eq, if_pos rfl]
            by_cases hxy : ishex x = true ∧ ishex y = true
            · rw [if_neg (not_not_intro hxy)]
              by_cases hhost : unhex x < 8 ∧ ¬ (['%', x, y] = "%25".data)
              · rw [if_pos ⟨rfl, hhost.1, hhost.2⟩]
                exact ⟨_, rfl⟩
              · rw [if_neg (fun hh => hhost ⟨hh.2.1, hh.2.2⟩),
                  if_neg (fun hh => Mode.noConfusion hh.1)]
                obtain ⟨e, he⟩ := ih p''' t d1 d2 hlen3 h1 h2 h8 hne
                rw [he]
                exact ⟨e, rfl⟩
            · rw [if_pos hxy]
              exact ⟨_, rfl⟩
      · obtain ⟨e, he⟩ := ih p' t d1 d2 hlen' h1 h2 h8 hne
        cases p' with
        | nil =>
          rw [List.nil_append] at he
          simp only [List.cons_append, List.nil_append]
          rw [unescapeLoop_cons_eq, if_neg hc]
          by_cases hp2 : c = '+'
          · rw [if_pos hp2, he]
            exact ⟨e, rfl⟩
          · rw [if_neg hp2]
            by_cases hlit : c.toNat < 0x80 ∧ shouldEscape c Mode.encodeHost = true
            · rw [if_pos ⟨Or.inl rfl, hlit.1, hlit.2⟩]
              exact ⟨_, rfl⟩
            · rw [if_neg (fun hh => hlit ⟨hh.2.1, hh.2.2⟩), he]
              exact ⟨e, rfl⟩
        | cons x p'' =>
          cases p'' with
          | nil =>
            rw [List.cons_append, List.nil_append] at he
            simp only [List.cons_append, List.nil_append]
            rw [unescapeLoop_cons_eq, if_neg hc]
            by_cases hp2 : c = '+'
            · rw [if_pos hp2, he]
              exact ⟨e, rfl⟩
            · rw [if_neg hp2]
              by_cases hlit : c.toNat < 0x80 ∧ shouldEscape c Mode.encodeHost = true
              · rw [if_pos ⟨Or.inl rfl, hlit.1, hlit.2⟩]
                exact ⟨_, rfl⟩
              · rw [if_neg (fun hh => hlit ⟨hh.2.1, hh.2.2⟩), he]
                exact ⟨e, rfl⟩
          | cons y p''' =>
            rw [List.cons_append, List.cons_append] at he
            simp only [List.cons_append]
            rw [unescapeLoop_cons_eq, if_neg hc]
            by_cases hp2 : c = '+'
            · rw [if_pos hp2, he]
              exact ⟨e, rfl⟩
            · rw [if_neg hp2]
              by_cases hlit : c.toNat < 0x80 ∧ shouldEscape c Mode.encodeHost = true
              · rw [if_pos ⟨Or.inl rfl, hlit.1, hlit.2⟩]
                exact ⟨_, rfl⟩
              · rw [if_neg (fun hh => hlit ⟨hh.2.1, hh.2.2⟩), he]
                exact ⟨e, rfl⟩

/-- Claim C8, amended to the Host context only: whenever a string contains a
well-formed percent escape whose decoded value is an ASCII byte (first hex
digit below 8) and whose literal three characters are not exactly "%25",
unescape in Host context fails with an error.  (In Zone context such an
escape is instead checked against the Host escaping rules of the decoded
byte and may be accepted; see the counterexample.) -/
theorem claimC8 (s p t : List Char) (d1 d2 : Char)
    (hdecomp : s = p ++ '%' :: d1 :: d2 :: t)
    (h1 : ishex d1 = true) (h2 : ishex d2 = true) (h8 : unhex d1 < 8)
    (hne : ¬ (['%', d1, d2] = "%25".data)) :
    isOkB (unescape s Mode.encodeHost) = false := by
  subst hdecomp
  obtain ⟨e, he⟩ := unescapeLoop_host_err p.length p t d1 d2 (le_refl _) h1 h2 h8 hne
  unfold unescape
  rw [he]
  rfl

theorem claimC8_witness :
    ishex '4' = true ∧ unhex '4' < 8 ∧ ¬ (['%', '4', '1'] = "%25".data) ∧
    isOkB (unescape "%41".data Mode.encodeHost) = false :=
  ⟨rfl, by decide, by decide,
    claimC8 "%41".data [] [] '4' '1' rfl rfl rfl (by decide) (by decide)⟩

/-- Claim C8, counterexample for the Zone half: "%41" is a well-formed escape
decoding to the ASCII byte 0x41 and is not the literal "%25", yet unescape in
Zone context succeeds (it decodes to "A"), because the Zone branch only
rejects escaped bytes that would need escaping in a host. -/
theorem claimC8_cex : unescape "%41".data Mode.encodeZone = .ok "A".data := rfl

theorem take_app_len (u v : List Char) : (u ++ v).take u.length = u := by
  induction u with
  | nil => rfl
  | cons x u' ih => simp only [List.cons_append, List.length_cons, List.take_succ_cons, ih]

theorem drop_app_succ (u v : List Char) (c : Char) :
    (u ++ c :: v).drop (u.length + 1) = v := by
  induction u with
  | nil => rfl
  | cons x u' ih =>
    rw [List.cons_append, List.length_cons]
    exact ih

theorem lastIndexOf_none (s : List Char) (c : Char) (h : containsChar s c = false) :
    lastIndexOf? s c = none := by
  induction s with
  | nil => rfl
  | cons x rest ih =>
    simp only [containsChar, List.any_cons, Bool.or_eq_false_iff,
      decide_eq_false_iff_not] at h
    simp only [lastIndexOf?, ih (by simpa [containsChar] using h.2), if_neg h.1]

theorem lastIndexOf_append (u h : List Char) (c : Char) (hh : containsChar h c = false) :
    lastIndexOf? (u ++ c :: h) c = some u.length := by
  induction u with
  | nil => simp [lastIndexOf?, lastIndexOf_none h c hh]
  | cons x u' ih => simp [lastIndexOf?, ih]

theorem subIndex_colon (u1 u2 : List Char) (h : containsChar u1 ':' = false) :
    subIndex? (u1 ++ ':' :: u2) ":".data = some u1.length := by
  induction u1 with
  | nil => simp [subIndex?, startsWith]
  | cons x u1' ih =>
    simp only [containsChar, List.any_cons, Bool.or_eq_false_iff,
      decide_eq_false_iff_not] at h
    simp [subIndex?, startsWith, h.1, ih (by simpa [containsChar] using h.2)]

theorem cut_colon (u1 u2 : List Char) (h : containsChar u1 ':' = false) :
    cutStr (u1 ++ ':' :: u2) ":".data = ⟨u1, u2, true⟩ := by
  unfold cutStr
  simp [subIndex_colon u1 u2 h, take_app_len, drop_app_succ]

theorem containsChar_colon_mid (u1 u2 : List Char) :
    containsChar (u1 ++ ':' :: u2) ':' = true := by
  simp [containsChar]

/-- Claim C4, amended: with no "@" the whole authority is the host and no
userinfo is produced; otherwise the text after the LAST "@" is the host and
the text before it is the userinfo, WHICH MUST SATISFY THE USERINFO CHARACTER
CLASS (validUserinfo) or parseAuthority fails with the InvalidUserinfo error;
a valid userinfo containing ":" is split at the FIRST ":" into username and
password, each independently decoded in UserPassword context, with a decode
failure of either (after any host failure) propagating as the result. -/
theorem claimC4 :
    (∀ s : List Char, containsChar s '@' = false →
      parseAuthority s =
        Except.map (fun hostv => ((none : Option Userinfo), hostv)) (parseHost s)) ∧
    (∀ u h : List Char, containsChar h '@' = false → validUserinfo u = false →
      (∃ hostv, parseHost h = .ok hostv) →
      parseAuthority (u ++ '@' :: h) = .error invalidUserinfoErr) ∧
    (∀ u1 u2 h : List Char, containsChar h '@' = false →
      containsChar u1 ':' = false → validUserinfo (u1 ++ ':' :: u2) = true →
      parseAuthority (u1 ++ ':' :: u2 ++ '@' :: h) =
        match parseHost h with
        | .error e => .error e
        | .ok hostv =>
          match unescape u1 Mode.encodeUserPassword with
          | .error e => .error e
          | .ok username =>
            match unescape u2 Mode.encodeUserPassword with
            | .error e => .error e
            | .ok password => .ok (some (Userinfo.userPassword username password), hostv)) := by
  refine ⟨?_, ?_, ?_⟩
  · intro s hs
    unfold parseAuthority
    rw [lastIndexOf_none s '@' hs]
    cases hp : parseHost s <;> simp [Except.map]
  · intro u h hh hv hex
    obtain ⟨hostv, hph⟩ := hex
    have key := lastIndexOf_append u h '@' hh
    have hdrop : (u ++ '@' :: h).drop (u.length + 1) = h := drop_app_succ u h '@'
    have htake : (u ++ '@' :: h).take u.length = u := take_app_len u ('@' :: h)
    unfold parseAuthority
    simp only [key, hdrop, htake, hph, hv]
    rw [if_pos (by decide)]
  · intro u1 u2 h hh h1 hv
    have hs : u1 ++ ':' :: u2 ++ '@' :: h = (u1 ++ ':' :: u2) ++ '@' :: h := by
      simp [List.append_assoc]
    rw [hs]
    have key := lastIndexOf_append (u1 ++ ':' :: u2) h '@' hh
    have hdrop : ((u1 ++ ':' :: u2) ++ '@' :: h).drop ((u1 ++ ':' :: u2).length + 1) = h :=
      drop_app_succ (u1 ++ ':' :: u2) h '@'
    have htake : ((u1 ++ ':' :: u2) ++ '@' :: h).take (u1 ++ ':' :: u2).length =
        u1 ++ ':' :: u2 := take_app_len (u1 ++ ':' :: u2) ('@' :: h)
    unfold parseAuthority
    simp only [key, hdrop]
    cases hph : parseHost h with
    | error e => rfl
    | ok hostv =>
      simp only [htake, hv]
      rw [if_neg (not_not_intro trivial),
        if_neg (not_not_intro (containsChar_colon_mid u1 u2)),
        show cutStr (u1 ++ ':' :: u2) [':'] = ⟨u1, u2, true⟩ from cut_colon u1 u2 h1]

theorem claimC4_witness :
    parseAuthority "h".data = .ok (none, "h".data) ∧
    parseAuthority "a^@h".data = .error invalidUserinfoErr ∧
    parseAuthority "x:y@h".data = .ok (some (Userinfo.userPassword "x".data "y".data), "h".data) :=
  ⟨(claimC4.1 "h".data rfl).trans rfl,
   claimC4.2.1 "a^".data "h".data rfl rfl ⟨"h".data, rfl⟩,
   (claimC4.2.2 "x".data "y".data "h".data rfl rfl rfl).trans rfl⟩

/-- Claim C4, counterexample: for the authority "a^:b@h" the claim as stated
makes parseAuthority split the userinfo "a^:b" at the first ":" and succeed
(both halves decode without error in UserPassword context), but the code
rejects the userinfo with the InvalidUserinfo error before any split, because
"^" is outside the userinfo character class. -/
theorem claimC4_cex :
    parseAuthority "a^:b@h".data ≠
      .ok (some (Userinfo.userPassword "a^".data "b".data), "h".data) := by
  rw [show parseAuthority "a^:b@h".data = .error invalidUserinfoErr from rfl]
  intro hcontra
  exact Except.noConfusion hcontra

theorem setPath_pres (u : URL) (p : List Char) (url : URL)
    (h : setPath u p = .ok url) :
    url.ForceQuery = u.ForceQuery ∧ url.RawQuery = u.RawQuery := by
  unfold setPath at h
  cases hu : unescape p Mode.encodePath with
  | error e => rw [hu] at h; exact Except.noConfusion h
  | ok path =>
    rw [hu] at h
    injection h with h'
    rw [← h']
    exact ⟨rfl, rfl⟩

theorem authStage_pres (rest : List Char) (u : URL) (via : Bool) (url : URL)
    (h : parseAuthorityStage rest u via = .ok url) :
    url.ForceQuery = u.ForceQuery ∧ url.RawQuery = u.RawQuery := by
  unfold parseAuthorityStage at h
  split at h
  · split at h
    · split at h
      · exact Except.noConfusion h
      · exact setPath_pres _ _ _ h
    · split at h
      · exact Except.noConfusion h
      · exact setPath_pres _ _ _ h
  · split at h
    · exact setPath_pres { u with OmitHost := some true } rest url h
    · exact setPath_pres _ _ _ h

theorem afterQuery_pres (rest : List Char) (u : URL) (via : Bool) (url : URL)
    (h : parseAfterQuery rest u via = .ok url) :
    url.ForceQuery = u.ForceQuery ∧ url.RawQuery = u.RawQuery := by
  unfold parseAfterQuery at h
  split at h
  · exact authStage_pres _ _ _ _ h
  · split at h
    · injection h with h'
      rw [← h']
      exact ⟨rfl, rfl⟩
    · split at h
      · exact Except.noConfusion h
      · split at h
        · exact Except.noConfusion h
        · exact authStage_pres _ _ _ _ h

/-- Claim C6: on every input on which parse succeeds, writing rest0 for the
post-scheme remainder delivered by getScheme: when rest0 ends with "?" and
contains exactly one "?", the parse continues on rest0 with its final "?"
stripped, the result has ForceQuery true and an empty rawQuery; otherwise the
result has ForceQuery false and rawQuery equal to the text after the first
"?" of rest0.  In every successful result, ForceQuery true implies the
rawQuery is the empty string. -/
theorem claimC6 (rawURL : List Char) (viaRequest : Bool) (url : URL) (sch rest0 : List Char)
    (hok : parse rawURL viaRequest = .ok url)
    (hsch : getScheme rawURL = .ok ⟨sch, rest0⟩) :
    ((endsWith rest0 "?".data = true ∧ countOccur rest0 '?' = 1) →
        parse rawURL viaRequest =
          parseAfterQuery (rest0.take (rest0.length - 1))
            { Scheme := some (toLowerAscii sch), ForceQuery := some true } viaRequest ∧
        url.ForceQuery = some true ∧ url.RawQuery.getD [] = []) ∧
    (¬ (endsWith rest0 "?".data = true ∧ countOccur rest0 '?' = 1) →
        url.ForceQuery.getD false = false ∧
        url.RawQuery.getD [] = (cutStr rest0 "?".data).after) ∧
    (url.ForceQuery.getD false = true → url.RawQuery.getD [] = []) := by
  have hgs := getScheme_eq rawURL
  rw [hsch] at hgs
  simp only [Except.ok.injEq, SchemeRes.mk.injEq] at hgs
  obtain ⟨hs1, hs2⟩ := hgs
  subst hs1
  subst rest0
  by_cases hctl : stringContainsCTLByte rawURL = true
  · rw [parse_ctl _ _ hctl] at hok
    exact Except.noConfusion hok
  · by_cases hemp : rawURL = [] ∧ viaRequest = true
    · unfold parse at hok
      rw [if_neg hctl, if_pos hemp] at hok
      exact Except.noConfusion hok
    · by_cases hstar : rawURL = "*".data
      · unfold parse at hok
        rw [if_neg hctl, if_neg hemp, if_pos hstar] at hok
        injection hok with hok'
        subst hok'
        subst hstar
        refine ⟨?_, ?_, ?_⟩
        · intro hcond
          exact absurd hcond.1 (by decide)
        · intro _
          exact ⟨rfl, by decide⟩
        · intro hfq
          exact Bool.noConfusion hfq
      · by_cases hq : endsWith rawURL "?".data = true ∧ countOccur rawURL '?' = 1
        · have hqs : parseQuerySplit rawURL { Scheme := some (toLowerAscii []) } =
              (rawURL.take (rawURL.length - 1),
               { Scheme := some (toLowerAscii []), ForceQuery := some true }) := by
            unfold parseQuerySplit
            rw [if_pos hq]
          have hparse : parse rawURL viaRequest =
              parseAfterQuery (rawURL.take (rawURL.length - 1))
                { Scheme := some (toLowerAscii []), ForceQuery := some true } viaRequest := by
            unfold parse
            rw [if_neg hctl, if_neg hemp, if_neg hstar]
            simp only [getScheme_eq rawURL, hqs]
          rw [hparse] at hok
          have hpres := afterQuery_pres _ _ _ _ hok
          refine ⟨?_, ?_, ?_⟩
          · intro _
            refine ⟨hparse, hpres.1.trans rfl, ?_⟩
            rw [hpres.2]
            rfl
          · intro hncond
            exact absurd hq hncond
          · intro _
            rw [hpres.2]
            rfl
        · have hqs : parseQuerySplit rawURL { Scheme := some (toLowerAscii []) } =
              ((cutStr rawURL "?".data).before,
               { Scheme := some (toLowerAscii []),
                 RawQuery := some (cutStr rawURL "?".data).after }) := by
            unfold parseQuerySplit
            rw [if_neg hq]
          have hparse : parse rawURL viaRequest =
              parseAfterQuery (cutStr rawURL "?".data).before
                { Scheme := some (toLowerAscii []),
                  RawQuery := some (cutStr rawURL "?".data).after } viaRequest := by
            unfold parse
            rw [if_neg hctl, if_neg hemp, if_neg hstar]
            simp only [getScheme_eq rawURL, hqs]
          rw [hparse] at hok
          have hpres := afterQuery_pres _ _ _ _ hok
          refine ⟨?_, ?_, ?_⟩
          · intro hcond
            exact absurd hcond hq
          · intro _
            constructor
            · rw [hpres.1]
              rfl
            · rw [hpres.2]
              rfl
          · intro hfq
            rw [hpres.1] at hfq
            exact Bool.noConfusion hfq

theorem claimC6_witness :
    parse "a?".data false =
      parseAfterQuery ("a?".data.take ("a?".data.length - 1))
        { Scheme := some (toLowerAscii []), ForceQuery := some true } false ∧
    URL.ForceQuery { Scheme := some [], ForceQuery := some true, Path := some ['a'] } =
      some true ∧
    (URL.RawQuery { Scheme := some [], ForceQuery := some true, Path := some ['a'] }).getD [] =
      [] :=
  (claimC6 "a?".data false
    { Scheme := some [], ForceQuery := some true, Path := some ['a'] }
    [] "a?".data rfl rfl).1 ⟨rfl, rfl⟩

theorem setPath_clear (u : URL) (p : List Char) :
    Except.map clearUserHost (setPath u p) = setPath (clearUserHost u) p := by
  unfold setPath
  cases hu : unescape p Mode.encodePath with
  | error e => rfl
  | ok path => rfl

theorem clearUserHost_of_none (u : URL) (h1 : u.User = none) (h2 : u.Host = none) :
    clearUserHost u = u := by
  cases u with
  | mk s o hst p rp oh fq rq fr rfr usr =>
    rw [show usr = none from h1, show hst = none from h2]
    rfl

theorem authStage_equiv (rest : List Char) (u : URL) (via : Bool)
    (h1 : u.User = none) (h2 : u.Host = none) :
    parseAuthorityStage rest u via =
      Except.map clearUserHost (parseAuthorityStage0 rest u via) := by
  unfold parseAuthorityStage parseAuthorityStage0
  by_cases hcond : (u.Scheme.getD [] ≠ [] ∨ (via = false ∧ startsWith rest "///".data = false)) ∧
      startsWith rest "//".data = true
  · rw [if_pos hcond, if_pos hcond]
    split
    · split
      · rfl
      · rename_i uh heq
        rw [setPath_clear,
          show clearUserHost { u with User := uh.1, Host := some uh.2 } = clearUserHost u
            from rfl,
          clearUserHost_of_none u h1 h2]
    · split
      · rfl
      · rename_i uh heq
        rw [setPath_clear,
          show clearUserHost { u with User := uh.1, Host := some uh.2 } = clearUserHost u
            from rfl,
          clearUserHost_of_none u h1 h2]
  · rw [if_neg hcond, if_neg hcond]
    by_cases hcond2 : u.Scheme.getD [] ≠ [] ∧ startsWith rest "/".data = true
    · rw [if_pos hcond2, setPath_clear,
        clearUserHost_of_none { u with OmitHost := some true } h1 h2]
    · rw [if_neg hcond2, setPath_clear, clearUserHost_of_none u h1 h2]

theorem afterQuery_equiv (rest : List Char) (u : URL) (via : Bool)
    (h1 : u.User = none) (h2 : u.Host = none) :
    parseAfterQuery rest u via = Except.map clearUserHost (parseAfterQuery0 rest u via) := by
  unfold parseAfterQuery parseAfterQuery0
  by_cases hc1 : 0 < rest.length ∧ rest.headD ' ' = '/'
  · rw [if_pos hc1, if_pos hc1]
    exact authStage_equiv rest u via h1 h2
  · rw [if_neg hc1, if_neg hc1]
    by_cases hc2 : u.Scheme.getD [] ≠ []
    · rw [if_pos hc2, if_pos hc2,
        show Except.map clearUserHost (Except.ok { u with Opaque := some rest } : Except Err URL) =
          Except.ok (clearUserHost { u with Opaque := some rest }) from rfl,
        clearUserHost_of_none { u with Opaque := some rest } h1 h2]
    · rw [if_neg hc2, if_neg hc2]
      by_cases hc3 : via = true
      · rw [if_pos hc3, if_pos hc3]
        rfl
      · rw [if_neg hc3, if_neg hc3]
        by_cases hc4 : containsChar (cutStr rest "/".data).before ':' = true
        · rw [if_pos hc4, if_pos hc4]
          rfl
        · rw [if_neg hc4, if_neg hc4]
          exact authStage_equiv rest u via h1 h2

/-- Claim C10, amended: the two parse functions are NOT extensionally equal;
they agree exactly up to the User and Host fields, which the parse of
`src/src/index.ts` never sets (it discards the result of parseAuthority,
whose assignment is commented out there) while the parse of
`src/unnamed/part_000` assigns them.  Erasing User and Host from every
successful result of part_000's parse yields exactly index.ts's parse, and
the two functions return identical errors. -/
theorem claimC10 (rawURL : List Char) (viaRequest : Bool) :
    parse rawURL viaRequest = Except.map clearUserHost (parse0 rawURL viaRequest) := by
  unfold parse parse0
  by_cases hctl : stringContainsCTLByte rawURL = true
  · rw [if_pos hctl, if_pos hctl]
    rfl
  · rw [if_neg hctl, if_neg hctl]
    by_cases hemp : rawURL = [] ∧ viaRequest = true
    · rw [if_pos hemp, if_pos hemp]
      rfl
    · rw [if_neg hemp, if_neg hemp]
      by_cases hstar : rawURL = "*".data
      · rw [if_pos hstar, if_pos hstar]
        rfl
      · rw [if_neg hstar, if_neg hstar]
        simp only [getScheme_eq rawURL]
        apply afterQuery_equiv
        · unfold parseQuerySplit
          by_cases hq : endsWith rawURL "?".data = true ∧ countOccur rawURL '?' = 1
          · rw [if_pos hq]
          · rw [if_neg hq]
        · unfold parseQuerySplit
          by_cases hq : endsWith rawURL "?".data = true ∧ countOccur rawURL '?' = 1
          · rw [if_pos hq]
          · rw [if_neg hq]

/-- Claim C10, counterexample: on the input "//h" with viaRequest=false the
two parse functions disagree: index.ts's parse leaves Host unset while
part_000's parse sets Host to "h". -/
theorem claimC10_cex : parse "//h".data false ≠ parse0 "//h".data false := fun h =>
  absurd (congrArg hostOf h) (by decide)
